import Mathlib

/-!
Verification of the fuzzy aesthetic-quality scoring system in
src/fuzzy_system.py and of the HTTP endpoint wiring in src/app.py.

The repository builds a Mamdani fuzzy-inference system out of the
scikit-fuzzy control API.  src/fuzzy_system.py fixes the universes
(inputs sampled over [0,10], output sampled at the integers 0..100),
the nine antecedent membership functions, the three consequent
membership functions, the eight rules, and a simulation object that
clamps crisp inputs into the universe, fires the rules with min/max
semantics, aggregates the clipped consequent sets pointwise by max and
defuzzifies by the weighted-average centroid over the output samples.

All arithmetic is modelled exactly over ℚ.  The input membership
breakpoints (0, 5, 10) and output breakpoints (0, 30, 50, 60, 70, 90,
100) all lie on the corresponding sample grids, so the library's
interpolation of the sampled membership arrays coincides with the exact
piecewise-linear formulas used here.
-/

set_option maxRecDepth 100000

attribute [local semireducible] Rat.mul Rat.inv Rat.add Rat.sub

namespace FuzzyPhoto

/-- Modelled from the spec: the triangular membership generator
(`skfuzzy.trimf`, external library code not present in src/).  §4.1:
zero for x ≤ a or x ≥ c, linear rise over [a,b], linear fall over
[b,c], with the degenerate a = b or b = c cases forming a vertical
edge whose corner (the peak x = b) carries membership 1; no division
is performed on a zero-width segment. -/
def trimf (a b c x : ℚ) : ℚ :=
  if x = b then 1
  else if x ≤ a ∨ c ≤ x then 0
  else if x < b then (x - a) / (b - a)
  else (c - x) / (c - b)

/-- Modelled from the spec: the trapezoidal membership generator
(`skfuzzy.trapmf`, external library code not present in src/).  §4.1:
zero outside [a,d], linear rise over [a,b], plateau at 1 over [b,c],
linear fall over [c,d]. -/
def trapmf (a b c d x : ℚ) : ℚ :=
  if b ≤ x ∧ x ≤ c then 1
  else if x ≤ a ∨ d ≤ x then 0
  else if x < b then (x - a) / (b - a)
  else (d - x) / (d - c)

/-- Modelled from the spec: out-of-range crisp inputs are clamped to
the universe bounds [0,10] rather than rejected (§4.5, §7; the
skfuzzy simulation's input setter, external library code). -/
def clampInput (x : ℚ) : ℚ := max 0 (min 10 x)

/-- nitidez['baja'] = fuzz.trimf(universe, [0, 0, 5]) -/
def nitidez_baja (x : ℚ) : ℚ := trimf 0 0 5 x

/-- nitidez['media'] = fuzz.trimf(universe, [0, 5, 10]) -/
def nitidez_media (x : ℚ) : ℚ := trimf 0 5 10 x

/-- nitidez['alta'] = fuzz.trimf(universe, [5, 10, 10]) -/
def nitidez_alta (x : ℚ) : ℚ := trimf 5 10 10 x

/-- contraste['bajo'] = fuzz.trimf(universe, [0, 0, 5]) -/
def contraste_bajo (x : ℚ) : ℚ := trimf 0 0 5 x

/-- contraste['normal'] = fuzz.trimf(universe, [0, 5, 10]) -/
def contraste_normal (x : ℚ) : ℚ := trimf 0 5 10 x

/-- contraste['alto'] = fuzz.trimf(universe, [5, 10, 10]) -/
def contraste_alto (x : ℚ) : ℚ := trimf 5 10 10 x

/-- exposicion['oscura'] = fuzz.trimf(universe, [0, 0, 5]) -/
def exposicion_oscura (x : ℚ) : ℚ := trimf 0 0 5 x

/-- exposicion['correcta'] = fuzz.trimf(universe, [0, 5, 10]) -/
def exposicion_correcta (x : ℚ) : ℚ := trimf 0 5 10 x

/-- exposicion['brillante'] = fuzz.trimf(universe, [5, 10, 10]) -/
def exposicion_brillante (x : ℚ) : ℚ := trimf 5 10 10 x

/-- calidad_estetica['pobre'] = fuzz.trapmf(universe, [0, 0, 30, 50]) -/
def calidad_pobre (x : ℚ) : ℚ := trapmf 0 0 30 50 x

/-- calidad_estetica['aceptable'] = fuzz.trimf(universe, [30, 60, 90]) -/
def calidad_aceptable (x : ℚ) : ℚ := trimf 30 60 90 x

/-- calidad_estetica['excelente'] = fuzz.trapmf(universe, [70, 90, 100, 100]) -/
def calidad_excelente (x : ℚ) : ℚ := trapmf 70 90 100 100 x

/-- rule1: nitidez['baja'] | contraste['bajo']  →  pobre -/
def rule1_act (n c _e : ℚ) : ℚ := max (nitidez_baja n) (contraste_bajo c)

/-- rule2: nitidez['alta'] & contraste['alto']  →  excelente -/
def rule2_act (n c _e : ℚ) : ℚ := min (nitidez_alta n) (contraste_alto c)

/-- rule3: exposicion['oscura'] | exposicion['brillante']  →  pobre -/
def rule3_act (_n _c e : ℚ) : ℚ := max (exposicion_oscura e) (exposicion_brillante e)

/-- rule4: nitidez['media'] & contraste['normal'] & exposicion['correcta']  →  aceptable -/
def rule4_act (n c e : ℚ) : ℚ :=
  min (min (nitidez_media n) (contraste_normal c)) (exposicion_correcta e)

/-- rule5: nitidez['alta'] & contraste['normal'] & exposicion['correcta']  →  excelente -/
def rule5_act (n c e : ℚ) : ℚ :=
  min (min (nitidez_alta n) (contraste_normal c)) (exposicion_correcta e)

/-- rule6: nitidez['media'] | contraste['normal']  →  aceptable -/
def rule6_act (n c _e : ℚ) : ℚ := max (nitidez_media n) (contraste_normal c)

/-- rule7: nitidez['baja'] & exposicion['oscura']  →  pobre -/
def rule7_act (n _c e : ℚ) : ℚ := min (nitidez_baja n) (exposicion_oscura e)

/-- rule8: contraste['alto'] & exposicion['brillante']  →  pobre -/
def rule8_act (_n c e : ℚ) : ℚ := min (contraste_alto c) (exposicion_brillante e)

/-- Aggregated activation of the consequent term `pobre`
(max over the activations of rules 1, 3, 7, 8). -/
def agg_pobre (n c e : ℚ) : ℚ :=
  max (rule1_act n c e) (max (rule3_act n c e) (max (rule7_act n c e) (rule8_act n c e)))

/-- Aggregated activation of the consequent term `aceptable`
(max over the activations of rules 4 and 6). -/
def agg_aceptable (n c e : ℚ) : ℚ := max (rule4_act n c e) (rule6_act n c e)

/-- Aggregated activation of the consequent term `excelente`
(max over the activations of rules 2 and 5). -/
def agg_excelente (n c e : ℚ) : ℚ := max (rule2_act n c e) (rule5_act n c e)

/-- Modelled from the spec: the combined output fuzzy set (§4.3; the
skfuzzy aggregation step, external library code).  Each consequent
term's membership curve is clipped at its aggregated activation and
the three clipped sets are combined pointwise by max. -/
def aggregatedMF (wp wa we x : ℚ) : ℚ :=
  max (min wp (calidad_pobre x))
    (max (min wa (calidad_aceptable x)) (min we (calidad_excelente x)))

/-- Numerator of the centroid: sum of x·μ(x) over the output samples
0, 1, ..., 100 (universo_salida = np.arange(0, 100.1, 1)). -/
def centroidNum (wp wa we : ℚ) : ℚ :=
  ∑ x in Finset.range 101, (x : ℚ) * aggregatedMF wp wa we (x : ℚ)

/-- Denominator of the centroid: sum of μ(x) over the output samples. -/
def centroidDen (wp wa we : ℚ) : ℚ :=
  ∑ x in Finset.range 101, aggregatedMF wp wa we (x : ℚ)

/-- Modelled from the spec: centroid defuzzification (§4.4; the
skfuzzy defuzzification step, external library code): the weighted
average of the output samples under the aggregated membership, with
the documented midpoint fallback 50 should the aggregated membership
be identically zero. -/
def defuzzCentroid (wp wa we : ℚ) : ℚ :=
  if centroidDen wp wa we = 0 then 50
  else centroidNum wp wa we / centroidDen wp wa we

/-- The full crisp pipeline of evaluate_quality in src/fuzzy_system.py:
clamp the three inputs into the input universe, fire the eight rules,
aggregate and take the centroid. -/
def evaluate_quality (n c e : ℚ) : ℚ :=
  defuzzCentroid
    (agg_pobre (clampInput n) (clampInput c) (clampInput e))
    (agg_aceptable (clampInput n) (clampInput c) (clampInput e))
    (agg_excelente (clampInput n) (clampInput c) (clampInput e))

/-- Modelled from the spec: the mutable state of the skfuzzy
ControlSystemSimulation object (external library code): the crisp
input registers and the last computed output (§3 Inference
Engine/Simulation). -/
structure ControlSystemSimulation where
  input_nitidez : Option ℚ
  input_contraste : Option ℚ
  input_exposicion : Option ℚ
  output_calidad : Option ℚ

/-- initialize_fuzzy_system in src/fuzzy_system.py: builds the rule
base (fixed above) and returns a fresh simulation with no inputs set. -/
def initialize_fuzzy_system : ControlSystemSimulation :=
  { input_nitidez := none, input_contraste := none,
    input_exposicion := none, output_calidad := none }

/-- Modelled from the spec: simulador.compute() (external library
code): runs fuzzification → rule activation → aggregation →
defuzzification on the stored crisp inputs and stores the crisp
output (§4.2–§4.4). -/
def simCompute (s : ControlSystemSimulation) : ControlSystemSimulation :=
  match s.input_nitidez, s.input_contraste, s.input_exposicion with
  | some n, some c, some e =>
      let q : ℚ := defuzzCentroid (agg_pobre n c e) (agg_aceptable n c e) (agg_excelente n c e)
      { s with output_calidad := some q }
  | _, _, _ => s

/-- evaluate_quality in src/fuzzy_system.py acting on an explicit
simulation state: set the three input registers (clamped by the input
setter), call compute, and read the output register. -/
def evaluate_quality_sim (n c e : ℚ) (s : ControlSystemSimulation) :
    ℚ × ControlSystemSimulation :=
  let s1 := simCompute
    { s with input_nitidez := some (clampInput n),
             input_contraste := some (clampInput c),
             input_exposicion := some (clampInput e) }
  ((s1.output_calidad).getD 50, s1)

/-- The JSON body produced by the /upload_and_evaluate endpoint in
src/app.py, together with the HTTP status code.  `calidad` is an
Option so that "the quality field is omitted" is representable. -/
structure FuzzyResponse where
  calidad : Option ℚ
  error : Option String
  status : Nat

/-- upload_and_evaluate_fuzzy_api in src/app.py.  `engine` is the
module-level CALIDAD_SIMULADOR (None when initialization failed),
`hasImageFile` is whether 'imageFile' is present in request.files,
`filenameEmpty` is whether file.filename == '', and `metrics` is the
outcome of saving the upload and running calculate_metrics on it
(Except.error for any exception raised during processing). -/
def upload_and_evaluate_fuzzy_api (engine : Option ControlSystemSimulation)
    (hasImageFile filenameEmpty : Bool)
    (metrics : Except String (ℚ × ℚ × ℚ)) : FuzzyResponse :=
  match engine with
  | none =>
      { calidad := some 50, error := some "Motor de Logica Difusa no disponible.",
        status := 503 }
  | some sim =>
      if hasImageFile = false then
        { calidad := some 50, error := some "No se encontro el archivo de imagen.",
          status := 400 }
      else if filenameEmpty then
        { calidad := some 50, error := some "Nombre de archivo vacio.", status := 400 }
      else
        match metrics with
        | Except.error msg =>
            { calidad := some 50, error := some msg, status := 500 }
        | Except.ok (nv, cv, ev) =>
            { calidad := some (evaluate_quality_sim nv cv ev sim).1, error := none,
              status := 200 }

/-- The aggregated output membership on the slice contraste = 5,
exposicion = 5 with nitidez in [0,5]: the aggregated activations are
(w, 1, 0) with w = nitidez_baja, and the aggregated set reduces to
max (min w pobre) aceptable. -/
def muLow (w x : ℚ) : ℚ := max (min w (calidad_pobre x)) (calidad_aceptable x)

/-- The aggregated output membership on the slice contraste = 5,
exposicion = 5 with nitidez in [5,10]: the aggregated activations are
(0, 1, v) with v = nitidez_alta, and the aggregated set reduces to
max aceptable (min v excelente). -/
def muHigh (v x : ℚ) : ℚ := max (calidad_aceptable x) (min v (calidad_excelente x))

/-- Quality on the slice contraste = exposicion = 5 as a function of
the `pobre` clip level w (nitidez in [0,5]). -/
def qualityLow (w : ℚ) : ℚ := defuzzCentroid w 1 0

/-- Quality on the slice contraste = exposicion = 5 as a function of
the `excelente` clip level v (nitidez in [5,10]). -/
def qualityHigh (v : ℚ) : ℚ := defuzzCentroid 0 1 v

/-- Mass of muLow over the transition samples 31..42. -/
def lowMid (w : ℚ) : ℚ := ∑ x in Finset.Ico (31:ℕ) 43, muLow w (x : ℚ)

/-- Moment of muLow over the transition samples 31..42. -/
def lowMidX (w : ℚ) : ℚ := ∑ x in Finset.Ico (31:ℕ) 43, (x : ℚ) * muLow w (x : ℚ)

/-- Mass of muHigh over the transition samples 78..89. -/
def highMid (v : ℚ) : ℚ := ∑ x in Finset.Ico (78:ℕ) 90, muHigh v (x : ℚ)

/-- Moment of muHigh over the transition samples 78..89. -/
def highMidX (v : ℚ) : ℚ := ∑ x in Finset.Ico (78:ℕ) 90, (x : ℚ) * muHigh v (x : ℚ)

/-! ## Membership-function lemmas -/

lemma trimf_nonneg (a b c x : ℚ) (hab : a ≤ b) (hbc : b ≤ c) : 0 ≤ trimf a b c x := by
  unfold trimf
  split_ifs with h1 h2 h3
  · norm_num
  · norm_num
  · push_neg at h2
    exact div_nonneg (by linarith [h2.1]) (by linarith [h2.1, h3])
  · push_neg at h2
    exact div_nonneg (by linarith [h2.2]) (by linarith [h2.2, not_lt.mp h3])

lemma trimf_le_one (a b c x : ℚ) (hab : a ≤ b) (hbc : b ≤ c) : trimf a b c x ≤ 1 := by
  unfold trimf
  split_ifs with h1 h2 h3
  · norm_num
  · norm_num
  · push_neg at h2
    rw [div_le_one (by linarith [h2.1])]
    linarith
  · push_neg at h2
    rw [div_le_one (by linarith [h2.2, not_lt.mp h3])]
    linarith [not_lt.mp h3]

lemma trapmf_nonneg (a b c d x : ℚ) (hab : a ≤ b) (hbc : b ≤ c) (hcd : c ≤ d) :
    0 ≤ trapmf a b c d x := by
  unfold trapmf
  split_ifs with h1 h2 h3
  · norm_num
  · norm_num
  · push_neg at h1 h2
    exact div_nonneg (by linarith [h2.1]) (by linarith [h2.1, h3])
  · push_neg at h1 h2
    have hcx : c < x := h1 (not_lt.mp h3)
    exact div_nonneg (by linarith [h2.2]) (by linarith [h2.2, hcx])

lemma trapmf_le_one (a b c d x : ℚ) (hab : a ≤ b) (hbc : b ≤ c) (hcd : c ≤ d) :
    trapmf a b c d x ≤ 1 := by
  unfold trapmf
  split_ifs with h1 h2 h3
  · norm_num
  · norm_num
  · push_neg at h1 h2
    rw [div_le_one (by linarith [h2.1, h3])]
    linarith
  · push_neg at h1 h2
    have hcx : c < x := h1 (not_lt.mp h3)
    rw [div_le_one (by linarith [h2.2, hcx])]
    linarith

lemma pobre_nonneg (x : ℚ) : 0 ≤ calidad_pobre x :=
  trapmf_nonneg 0 0 30 50 x (by norm_num) (by norm_num) (by norm_num)

lemma pobre_le_one (x : ℚ) : calidad_pobre x ≤ 1 :=
  trapmf_le_one 0 0 30 50 x (by norm_num) (by norm_num) (by norm_num)

lemma acept_nonneg (x : ℚ) : 0 ≤ calidad_aceptable x :=
  trimf_nonneg 30 60 90 x (by norm_num) (by norm_num)

lemma acept_le_one (x : ℚ) : calidad_aceptable x ≤ 1 :=
  trimf_le_one 30 60 90 x (by norm_num) (by norm_num)

lemma exc_nonneg (x : ℚ) : 0 ≤ calidad_excelente x :=
  trapmf_nonneg 70 90 100 100 x (by norm_num) (by norm_num) (by norm_num)

lemma exc_le_one (x : ℚ) : calidad_excelente x ≤ 1 :=
  trapmf_le_one 70 90 100 100 x (by norm_num) (by norm_num) (by norm_num)

lemma trimf005_eval (n : ℚ) (h0 : 0 ≤ n) (h5 : n ≤ 5) : trimf 0 0 5 n = (5 - n) / 5 := by
  unfold trimf
  split_ifs with h1 h2 h3
  · rw [h1]; norm_num
  · rcases h2 with h | h
    · have : n = 0 := le_antisymm h h0
      exact absurd this h1
    · have : n = 5 := le_antisymm h5 h
      rw [this]; norm_num
  · push_neg at h2
    linarith [h2.1]
  · norm_num

lemma trimf005_zero (n : ℚ) (h5 : 5 ≤ n) : trimf 0 0 5 n = 0 := by
  unfold trimf
  rw [if_neg (by intro h; rw [h] at h5; linarith), if_pos (Or.inr h5)]

lemma trimf51010_eval (n : ℚ) (h5 : 5 ≤ n) (h10 : n ≤ 10) :
    trimf 5 10 10 n = (n - 5) / 5 := by
  unfold trimf
  split_ifs with h1 h2 h3
  · rw [h1]; norm_num
  · rcases h2 with h | h
    · have : n = 5 := le_antisymm h h5
      rw [this]; norm_num
    · have : n = 10 := le_antisymm h10 h
      exact absurd this h1
  · norm_num
  · push_neg at h3
    linarith [lt_of_le_of_ne h3 (Ne.symm h1)]

lemma trimf51010_zero (n : ℚ) (h5 : n ≤ 5) : trimf 5 10 10 n = 0 := by
  unfold trimf
  rw [if_neg (by intro h; rw [h] at h5; linarith), if_pos (Or.inl h5)]

lemma trimf0510_pos (n : ℚ) (h0 : 0 < n) (h10 : n < 10) : 0 < trimf 0 5 10 n := by
  unfold trimf
  split_ifs with h1 h2 h3
  · norm_num
  · rcases h2 with h | h <;> linarith
  · push_neg at h2
    exact div_pos (by linarith) (by norm_num)
  · push_neg at h2
    exact div_pos (by linarith) (by norm_num)

lemma clampInput_eq_self (x : ℚ) (h0 : 0 ≤ x) (h10 : x ≤ 10) : clampInput x = x := by
  unfold clampInput
  rw [min_eq_right h10, max_eq_right h0]

/-! ## Rule activations on the slice contraste = exposicion = 5 -/

lemma agg_aceptable_slice (n : ℚ) : agg_aceptable n 5 5 = 1 := by
  have hm1 : nitidez_media n ≤ 1 := trimf_le_one _ _ _ _ (by norm_num) (by norm_num)
  simp only [agg_aceptable, rule4_act, rule6_act,
    show contraste_normal 5 = 1 from by decide,
    show exposicion_correcta 5 = 1 from by decide]
  rw [max_eq_right hm1, max_eq_right (min_le_right (min (nitidez_media n) 1) 1)]

lemma agg_pobre_slice_low (n : ℚ) (h0 : 0 ≤ n) (h5 : n ≤ 5) :
    agg_pobre n 5 5 = (5 - n) / 5 := by
  have hbn : 0 ≤ nitidez_baja n := trimf_nonneg _ _ _ _ (by norm_num) (by norm_num)
  simp only [agg_pobre, rule1_act, rule3_act, rule7_act, rule8_act,
    show contraste_bajo 5 = 0 from by decide,
    show contraste_alto 5 = 0 from by decide,
    show exposicion_oscura 5 = 0 from by decide,
    show exposicion_brillante 5 = 0 from by decide]
  rw [min_eq_right hbn, max_eq_left hbn, min_self, max_self]
  rw [max_eq_left (le_refl (0:ℚ)), max_eq_left hbn]
  exact trimf005_eval n h0 h5

lemma agg_excelente_slice_low (n : ℚ) (h5 : n ≤ 5) : agg_excelente n 5 5 = 0 := by
  simp only [agg_excelente, rule2_act, rule5_act, trimf51010_zero n h5, nitidez_alta]
  decide

lemma agg_pobre_slice_high (n : ℚ) (h5 : 5 ≤ n) : agg_pobre n 5 5 = 0 := by
  simp only [agg_pobre, rule1_act, rule3_act, rule7_act, rule8_act,
    trimf005_zero n h5, nitidez_baja]
  decide

lemma agg_excelente_slice_high (n : ℚ) (h5 : 5 ≤ n) (h10 : n ≤ 10) :
    agg_excelente n 5 5 = (n - 5) / 5 := by
  have han : 0 ≤ nitidez_alta n := trimf_nonneg _ _ _ _ (by norm_num) (by norm_num)
  have ha1 : nitidez_alta n ≤ 1 := trimf_le_one _ _ _ _ (by norm_num) (by norm_num)
  simp only [agg_excelente, rule2_act, rule5_act,
    show contraste_alto 5 = 0 from by decide,
    show contraste_normal 5 = 1 from by decide,
    show exposicion_correcta 5 = 1 from by decide]
  rw [min_eq_right han, min_eq_left ha1, min_eq_left ha1, max_eq_right han]
  exact trimf51010_eval n h5 h10

lemma eval_slice_low (n : ℚ) (h0 : 0 ≤ n) (h5 : n ≤ 5) :
    evaluate_quality n 5 5 = qualityLow ((5 - n) / 5) := by
  unfold evaluate_quality qualityLow
  rw [clampInput_eq_self n h0 (by linarith), show clampInput 5 = 5 from by decide]
  rw [agg_pobre_slice_low n h0 h5, agg_aceptable_slice n, agg_excelente_slice_low n h5]

lemma eval_slice_high (n : ℚ) (h5 : 5 ≤ n) (h10 : n ≤ 10) :
    evaluate_quality n 5 5 = qualityHigh ((n - 5) / 5) := by
  unfold evaluate_quality qualityHigh
  rw [clampInput_eq_self n (by linarith) h10, show clampInput 5 = 5 from by decide]
  rw [agg_pobre_slice_high n h5, agg_aceptable_slice n, agg_excelente_slice_high n h5 h10]

/-! ## Reduction of the aggregated membership on the slice -/

lemma aggLow_eq (w x : ℚ) : aggregatedMF w 1 0 x = muLow w x := by
  unfold aggregatedMF muLow
  rw [min_eq_right (acept_le_one x), min_eq_left (exc_nonneg x),
    max_eq_left (acept_nonneg x)]

lemma aggHigh_eq (v x : ℚ) : aggregatedMF 0 1 v x = muHigh v x := by
  unfold aggregatedMF muHigh
  rw [min_eq_left (pobre_nonneg x), min_eq_right (acept_le_one x),
    max_eq_right (le_trans (acept_nonneg x) (le_max_left _ _))]

/-! ## General bounds for the centroid defuzzifier -/

lemma aggregatedMF_nonneg (wp wa we x : ℚ) (hwe : 0 ≤ we) :
    0 ≤ aggregatedMF wp wa we x :=
  le_trans (le_min hwe (exc_nonneg x))
    (le_trans (le_max_right (min wa (calidad_aceptable x)) _) (le_max_right _ _))

lemma centroidDen_nonneg (wp wa we : ℚ) (hwe : 0 ≤ we) : 0 ≤ centroidDen wp wa we :=
  Finset.sum_nonneg fun x _ => aggregatedMF_nonneg wp wa we (x : ℚ) hwe

lemma centroidNum_nonneg (wp wa we : ℚ) (hwe : 0 ≤ we) : 0 ≤ centroidNum wp wa we :=
  Finset.sum_nonneg fun x _ =>
    mul_nonneg (by positivity) (aggregatedMF_nonneg wp wa we (x : ℚ) hwe)

lemma centroidNum_le (wp wa we : ℚ) (hwe : 0 ≤ we) :
    centroidNum wp wa we ≤ 100 * centroidDen wp wa we := by
  unfold centroidNum centroidDen
  rw [Finset.mul_sum]
  apply Finset.sum_le_sum
  intro x hx
  apply mul_le_mul_of_nonneg_right _ (aggregatedMF_nonneg wp wa we (x : ℚ) hwe)
  have hx100 : x ≤ 100 := Nat.lt_succ_iff.mp (Finset.mem_range.mp hx)
  exact_mod_cast hx100

lemma defuzzCentroid_bounds (wp wa we : ℚ) (hwe : 0 ≤ we) :
    0 ≤ defuzzCentroid wp wa we ∧ defuzzCentroid wp wa we ≤ 100 := by
  unfold defuzzCentroid
  split_ifs with h
  · norm_num
  · have hdenpos : 0 < centroidDen wp wa we :=
      lt_of_le_of_ne (centroidDen_nonneg wp wa we hwe) (Ne.symm h)
    constructor
    · exact div_nonneg (centroidNum_nonneg wp wa we hwe) (le_of_lt hdenpos)
    · rw [div_le_iff₀ hdenpos]
      linarith [centroidNum_le wp wa we hwe]

set_option maxHeartbeats 2000000 in
lemma defuzzCentroid_strict (wp wa we : ℚ) (hwp : 0 ≤ wp) (hwa : 0 ≤ wa) (hwe : 0 ≤ we)
    (hpos : 0 < wp ∨ 0 < wa ∨ 0 < we) :
    0 < defuzzCentroid wp wa we ∧ defuzzCentroid wp wa we < 100 := by
  obtain ⟨x0, hmem, hlb, hub, hmu⟩ :
      ∃ x0 : ℕ, x0 ∈ Finset.range 101 ∧ 1 ≤ x0 ∧ x0 ≤ 90 ∧
        0 < aggregatedMF wp wa we (x0 : ℚ) := by
    rcases hpos with h | h | h
    · refine ⟨1, by decide, le_refl 1, by norm_num, ?_⟩
      have hc : ((1:ℕ):ℚ) = 1 := by norm_num
      rw [hc]
      have hp : calidad_pobre (1:ℚ) = 1 := by decide
      have : 0 < min wp (calidad_pobre (1:ℚ)) := by
        rw [hp]; exact lt_min h one_pos
      exact lt_of_lt_of_le this (le_max_left _ _)
    · refine ⟨60, by decide, by norm_num, by norm_num, ?_⟩
      have hc : ((60:ℕ):ℚ) = 60 := by norm_num
      rw [hc]
      have hp : calidad_aceptable (60:ℚ) = 1 := by decide
      have : 0 < min wa (calidad_aceptable (60:ℚ)) := by
        rw [hp]; exact lt_min h one_pos
      exact lt_of_lt_of_le this (le_trans (le_max_left _ _) (le_max_right _ _))
    · refine ⟨90, by decide, by norm_num, by norm_num, ?_⟩
      have hc : ((90:ℕ):ℚ) = 90 := by norm_num
      rw [hc]
      have hp : calidad_excelente (90:ℚ) = 1 := by decide
      have : 0 < min we (calidad_excelente (90:ℚ)) := by
        rw [hp]; exact lt_min h one_pos
      exact lt_of_lt_of_le this (le_trans (le_max_right _ _) (le_max_right _ _))
  have hden : aggregatedMF wp wa we (x0 : ℚ) ≤ centroidDen wp wa we := by
    unfold centroidDen
    exact @Finset.single_le_sum ℕ ℚ _ (fun i => aggregatedMF wp wa we (i : ℚ))
      (Finset.range 101) (fun i _ => aggregatedMF_nonneg wp wa we (i : ℚ) hwe) x0 hmem
  have hdenpos : 0 < centroidDen wp wa we := lt_of_lt_of_le hmu hden
  have hx0pos : (0:ℚ) < (x0 : ℚ) := by exact_mod_cast hlb
  have hx0ub : (x0 : ℚ) ≤ 90 := by exact_mod_cast hub
  have hnum : (x0 : ℚ) * aggregatedMF wp wa we (x0 : ℚ) ≤ centroidNum wp wa we := by
    unfold centroidNum
    exact @Finset.single_le_sum ℕ ℚ _ (fun i => (i : ℚ) * aggregatedMF wp wa we (i : ℚ))
      (Finset.range 101)
      (fun i _ => mul_nonneg (by positivity) (aggregatedMF_nonneg wp wa we (i : ℚ) hwe))
      x0 hmem
  have hnumpos : 0 < centroidNum wp wa we :=
    lt_of_lt_of_le (mul_pos hx0pos hmu) hnum
  have hkey : (100 - (x0 : ℚ)) * aggregatedMF wp wa we (x0 : ℚ) ≤
      ∑ x in Finset.range 101, (100 - (x : ℚ)) * aggregatedMF wp wa we (x : ℚ) := by
    refine @Finset.single_le_sum ℕ ℚ _ (fun i => (100 - (i : ℚ)) * aggregatedMF wp wa we (i : ℚ))
      (Finset.range 101) ?_ x0 hmem
    intro i hi
    have : (i : ℚ) ≤ 100 := by
      exact_mod_cast Nat.lt_succ_iff.mp (Finset.mem_range.mp hi)
    exact mul_nonneg (by linarith) (aggregatedMF_nonneg wp wa we (i : ℚ) hwe)
  have hsum : (∑ x in Finset.range 101, (100 - (x : ℚ)) * aggregatedMF wp wa we (x : ℚ)) =
      100 * centroidDen wp wa we - centroidNum wp wa we := by
    unfold centroidNum centroidDen
    rw [Finset.mul_sum, ← Finset.sum_sub_distrib]
    exact Finset.sum_congr rfl fun x _ => by ring
  have hnumlt : centroidNum wp wa we < 100 * centroidDen wp wa we := by
    have h1 : 0 < (100 - (x0 : ℚ)) * aggregatedMF wp wa we (x0 : ℚ) :=
      mul_pos (by linarith) hmu
    rw [hsum] at hkey
    linarith
  unfold defuzzCentroid
  rw [if_neg (ne_of_gt hdenpos)]
  exact ⟨div_pos hnumpos hdenpos, by rw [div_lt_iff₀ hdenpos]; linarith⟩

/-! ## Rule coverage: some rule always fires on [0,10]^3 -/

lemma some_rule_pos (n c e : ℚ) (h0n : 0 ≤ n) (h10n : n ≤ 10)
    (h0c : 0 ≤ c) (h10c : c ≤ 10) :
    0 < rule1_act n c e ∨ 0 < rule2_act n c e ∨ 0 < rule6_act n c e := by
  rcases lt_or_le n 5 with hn | hn
  · left
    have hb : 0 < nitidez_baja n := by
      rw [nitidez_baja, trimf005_eval n h0n (le_of_lt hn)]
      exact div_pos (by linarith) (by norm_num)
    exact lt_of_lt_of_le hb (le_max_left _ _)
  · rcases lt_or_eq_of_le h10n with hn10 | hn10
    · right; right
      have hm : 0 < nitidez_media n := trimf0510_pos n (by linarith) hn10
      exact lt_of_lt_of_le hm (le_max_left _ _)
    · rcases lt_or_le c 5 with hc | hc
      · left
        have hb : 0 < contraste_bajo c := by
          rw [contraste_bajo, trimf005_eval c h0c (le_of_lt hc)]
          exact div_pos (by linarith) (by norm_num)
        exact lt_of_lt_of_le hb (le_max_right _ _)
      · rcases lt_or_eq_of_le h10c with hc10 | hc10
        · right; right
          have hm : 0 < contraste_normal c := trimf0510_pos c (by linarith) hc10
          exact lt_of_lt_of_le hm (le_max_right _ _)
        · right; left
          rw [rule2_act, hn10, hc10]
          decide

lemma agg_pobre_nonneg (n c e : ℚ) : 0 ≤ agg_pobre n c e := by
  unfold agg_pobre rule1_act nitidez_baja
  exact le_trans (trimf_nonneg 0 0 5 n (by norm_num) (by norm_num))
    (le_trans (le_max_left _ _) (le_max_left _ _))

lemma agg_aceptable_nonneg (n c e : ℚ) : 0 ≤ agg_aceptable n c e := by
  unfold agg_aceptable rule6_act nitidez_media
  exact le_trans (trimf_nonneg 0 5 10 n (by norm_num) (by norm_num))
    (le_trans (le_max_left _ _) (le_max_right _ _))

lemma agg_excelente_nonneg (n c e : ℚ) : 0 ≤ agg_excelente n c e := by
  unfold agg_excelente rule2_act nitidez_alta contraste_alto
  exact le_trans
    (le_min (trimf_nonneg 5 10 10 n (by norm_num) (by norm_num))
      (trimf_nonneg 5 10 10 c (by norm_num) (by norm_num)))
    (le_max_left _ _)

/-! ## Monotonicity in nitidez, lower half: quality as a function of
the pobre clip level w is non-increasing on [0,1] -/

lemma min_sub_min_le (w1 w2 p : ℚ) (h : w1 ≤ w2) : min w2 p - min w1 p ≤ w2 - w1 := by
  rcases le_total w2 p with h2 | h2
  · rw [min_eq_left h2, min_eq_left (le_trans h h2)]
  · rcases le_total w1 p with h1 | h1
    · rw [min_eq_right h2, min_eq_left h1]
      linarith
    · rw [min_eq_right h2, min_eq_right h1]
      linarith

lemma max_sub_max_le (u1 u2 a : ℚ) (h : u1 ≤ u2) : max u2 a - max u1 a ≤ u2 - u1 := by
  rcases le_total u1 a with h1 | h1
  · rcases le_total u2 a with h2 | h2
    · rw [max_eq_right h1, max_eq_right h2]
      linarith
    · rw [max_eq_right h1, max_eq_left h2]
      linarith
  · rw [max_eq_left h1, max_eq_left (le_trans h1 (by linarith))]

lemma muLow_mono (w1 w2 x : ℚ) (h : w1 ≤ w2) : muLow w1 x ≤ muLow w2 x :=
  max_le_max (min_le_min h (le_refl _)) (le_refl _)

lemma muLow_lipschitz (w1 w2 x : ℚ) (h : w1 ≤ w2) : muLow w2 x - muLow w1 x ≤ w2 - w1 :=
  le_trans
    (max_sub_max_le (min w1 (calidad_pobre x)) (min w2 (calidad_pobre x))
      (calidad_aceptable x) (min_le_min h (le_refl _)))
    (min_sub_min_le w1 w2 (calidad_pobre x) h)

lemma muLow_ge_acept (w x : ℚ) : calidad_aceptable x ≤ muLow w x := le_max_right _ _

lemma muLow_nonneg (w x : ℚ) : 0 ≤ muLow w x :=
  le_trans (acept_nonneg x) (muLow_ge_acept w x)

lemma gridA0 : ∀ x ∈ Finset.Ico (0:ℕ) 31,
    calidad_pobre (x:ℚ) = 1 ∧ calidad_aceptable (x:ℚ) = 0 := by decide

lemma gridA2 : ∀ x ∈ Finset.Ico (43:ℕ) 101,
    calidad_pobre (x:ℚ) ≤ calidad_aceptable (x:ℚ) := by decide

lemma sumA0x : (∑ x in Finset.Ico (0:ℕ) 31, (x:ℚ)) = 465 := by decide

lemma sumA1acept : (∑ x in Finset.Ico (31:ℕ) 43, calidad_aceptable (x:ℚ)) = 13/5 := by decide

lemma sumA2acept : (∑ x in Finset.Ico (43:ℕ) 101, calidad_aceptable (x:ℚ)) = 137/5 := by
  decide

lemma sumA2aceptx :
    (∑ x in Finset.Ico (43:ℕ) 101, (x:ℚ) * calidad_aceptable (x:ℚ)) = 5101/3 := by decide

lemma muLow_plateau (w : ℚ) (h0 : 0 ≤ w) (h1 : w ≤ 1) :
    ∀ x ∈ Finset.Ico (0:ℕ) 31, muLow w (x:ℚ) = w := by
  intro x hx
  rw [muLow, (gridA0 x hx).1, (gridA0 x hx).2, min_eq_left h1, max_eq_left h0]

lemma muLow_tail (w : ℚ) :
    ∀ x ∈ Finset.Ico (43:ℕ) 101, muLow w (x:ℚ) = calidad_aceptable (x:ℚ) := by
  intro x hx
  rw [muLow, max_eq_right (le_trans (min_le_right _ _) (gridA2 x hx))]

lemma denLow_eq (w : ℚ) (h0 : 0 ≤ w) (h1 : w ≤ 1) :
    centroidDen w 1 0 = 31 * w + lowMid w + 137/5 := by
  unfold centroidDen
  rw [Finset.range_eq_Ico,
    ← Finset.sum_Ico_consecutive _ (show (0:ℕ) ≤ 31 by norm_num) (show (31:ℕ) ≤ 101 by norm_num),
    ← Finset.sum_Ico_consecutive _ (show (31:ℕ) ≤ 43 by norm_num) (show (43:ℕ) ≤ 101 by norm_num)]
  have e0 : (∑ x in Finset.Ico (0:ℕ) 31, aggregatedMF w 1 0 (x:ℚ)) = 31 * w := by
    have hc : (∑ x in Finset.Ico (0:ℕ) 31, aggregatedMF w 1 0 (x:ℚ)) =
        ∑ x in Finset.Ico (0:ℕ) 31, w :=
      Finset.sum_congr rfl fun x hx => (aggLow_eq w (x:ℚ)).trans (muLow_plateau w h0 h1 x hx)
    rw [hc, Finset.sum_const, Nat.card_Ico, nsmul_eq_mul]
    norm_num
  have e1 : (∑ x in Finset.Ico (31:ℕ) 43, aggregatedMF w 1 0 (x:ℚ)) = lowMid w := by
    have hc : (∑ x in Finset.Ico (31:ℕ) 43, aggregatedMF w 1 0 (x:ℚ)) =
        ∑ x in Finset.Ico (31:ℕ) 43, muLow w (x:ℚ) :=
      Finset.sum_congr rfl fun x _ => aggLow_eq w (x:ℚ)
    rw [hc]
    rfl
  have e2 : (∑ x in Finset.Ico (43:ℕ) 101, aggregatedMF w 1 0 (x:ℚ)) = 137/5 := by
    have hc : (∑ x in Finset.Ico (43:ℕ) 101, aggregatedMF w 1 0 (x:ℚ)) =
        ∑ x in Finset.Ico (43:ℕ) 101, calidad_aceptable (x:ℚ) :=
      Finset.sum_congr rfl fun x hx => (aggLow_eq w (x:ℚ)).trans (muLow_tail w x hx)
    rw [hc]
    exact sumA2acept
  rw [e0, e1, e2]
  ring

lemma numLow_eq (w : ℚ) (h0 : 0 ≤ w) (h1 : w ≤ 1) :
    centroidNum w 1 0 = 465 * w + lowMidX w + 5101/3 := by
  unfold centroidNum
  rw [Finset.range_eq_Ico,
    ← Finset.sum_Ico_consecutive _ (show (0:ℕ) ≤ 31 by norm_num) (show (31:ℕ) ≤ 101 by norm_num),
    ← Finset.sum_Ico_consecutive _ (show (31:ℕ) ≤ 43 by norm_num) (show (43:ℕ) ≤ 101 by norm_num)]
  have e0 : (∑ x in Finset.Ico (0:ℕ) 31, (x:ℚ) * aggregatedMF w 1 0 (x:ℚ)) = 465 * w := by
    have hc : (∑ x in Finset.Ico (0:ℕ) 31, (x:ℚ) * aggregatedMF w 1 0 (x:ℚ)) =
        ∑ x in Finset.Ico (0:ℕ) 31, (x:ℚ) * w :=
      Finset.sum_congr rfl fun x hx => by
        rw [aggLow_eq w (x:ℚ), muLow_plateau w h0 h1 x hx]
    rw [hc, ← Finset.sum_mul, sumA0x]
  have e1 : (∑ x in Finset.Ico (31:ℕ) 43, (x:ℚ) * aggregatedMF w 1 0 (x:ℚ)) = lowMidX w := by
    have hc : (∑ x in Finset.Ico (31:ℕ) 43, (x:ℚ) * aggregatedMF w 1 0 (x:ℚ)) =
        ∑ x in Finset.Ico (31:ℕ) 43, (x:ℚ) * muLow w (x:ℚ) :=
      Finset.sum_congr rfl fun x _ => by rw [aggLow_eq w (x:ℚ)]
    rw [hc]
    rfl
  have e2 : (∑ x in Finset.Ico (43:ℕ) 101, (x:ℚ) * aggregatedMF w 1 0 (x:ℚ)) = 5101/3 := by
    have hc : (∑ x in Finset.Ico (43:ℕ) 101, (x:ℚ) * aggregatedMF w 1 0 (x:ℚ)) =
        ∑ x in Finset.Ico (43:ℕ) 101, (x:ℚ) * calidad_aceptable (x:ℚ) :=
      Finset.sum_congr rfl fun x hx => by
        rw [aggLow_eq w (x:ℚ), muLow_tail w x hx]
    rw [hc]
    exact sumA2aceptx
  rw [e0, e1, e2]
  ring

lemma lowMid_lb (w : ℚ) : 13/5 ≤ lowMid w := by
  rw [← sumA1acept]
  unfold lowMid
  exact Finset.sum_le_sum fun x _ => muLow_ge_acept w (x:ℚ)

lemma lowMid_mono (w1 w2 : ℚ) (h : w1 ≤ w2) : lowMid w1 ≤ lowMid w2 := by
  unfold lowMid
  exact Finset.sum_le_sum fun x _ => muLow_mono w1 w2 (x:ℚ) h

lemma lowMid_lip (w1 w2 : ℚ) (h : w1 ≤ w2) : lowMid w2 ≤ lowMid w1 + 12 * (w2 - w1) := by
  unfold lowMid
  have step : (∑ x in Finset.Ico (31:ℕ) 43, muLow w2 (x:ℚ)) ≤
      ∑ x in Finset.Ico (31:ℕ) 43, (muLow w1 (x:ℚ) + (w2 - w1)) :=
    Finset.sum_le_sum fun x _ => by linarith [muLow_lipschitz w1 w2 (x:ℚ) h]
  rw [Finset.sum_add_distrib, Finset.sum_const, Nat.card_Ico, nsmul_eq_mul] at step
  norm_num at step
  linarith

lemma lowMidX_ge (w : ℚ) : 31 * lowMid w ≤ lowMidX w := by
  unfold lowMid lowMidX
  rw [Finset.mul_sum]
  apply Finset.sum_le_sum
  intro x hx
  have h31 : (31:ℚ) ≤ (x:ℚ) := by exact_mod_cast (Finset.mem_Ico.mp hx).1
  exact mul_le_mul_of_nonneg_right h31 (muLow_nonneg w (x:ℚ))

lemma lowMidX_step (w1 w2 : ℚ) (h : w1 ≤ w2) :
    lowMidX w2 + 42 * lowMid w1 ≤ lowMidX w1 + 42 * lowMid w2 := by
  unfold lowMid lowMidX
  rw [Finset.mul_sum, Finset.mul_sum, ← Finset.sum_add_distrib, ← Finset.sum_add_distrib]
  apply Finset.sum_le_sum
  intro x hx
  have hx42 : (x:ℚ) ≤ 42 := by
    have := (Finset.mem_Ico.mp hx).2
    have hle : x ≤ 42 := Nat.lt_succ_iff.mp this
    exact_mod_cast hle
  have hmono := muLow_mono w1 w2 (x:ℚ) h
  nlinarith [mul_nonneg (sub_nonneg.mpr hmono) (sub_nonneg.mpr hx42)]

lemma qualityLow_antitone (w1 w2 : ℚ) (h0 : 0 ≤ w1) (h12 : w1 ≤ w2) (h1 : w2 ≤ 1) :
    qualityLow w2 ≤ qualityLow w1 := by
  have h0' : 0 ≤ w2 := le_trans h0 h12
  have h1' : w1 ≤ 1 := le_trans h12 h1
  have hD1 := denLow_eq w1 h0 h1'
  have hD2 := denLow_eq w2 h0' h1
  have hN1 := numLow_eq w1 h0 h1'
  have hN2 := numLow_eq w2 h0' h1
  have hS1 := lowMid_lb w1
  have hS2 := lowMid_lb w2
  have hX1 := lowMidX_ge w1
  have hXstep := lowMidX_step w1 w2 h12
  have hSmono := lowMid_mono w1 w2 h12
  have hSlip := lowMid_lip w1 w2 h12
  have hD1pos : 0 < centroidDen w1 1 0 := by rw [hD1]; linarith
  have hD2pos : 0 < centroidDen w2 1 0 := by rw [hD2]; linarith
  unfold qualityLow defuzzCentroid
  rw [if_neg (ne_of_gt hD1pos), if_neg (ne_of_gt hD2pos),
    div_le_div_iff₀ hD2pos hD1pos, hN1, hN2, hD1, hD2]
  have hND : 0 ≤ (465 * w1 + lowMidX w1 + 5101/3) - 23 * (31 * w1 + lowMid w1 + 137/5) := by
    linarith
  have hDD : 0 ≤ 31 * (w2 - w1) + (lowMid w2 - lowMid w1) := by linarith
  have hD1nn : 0 ≤ 31 * w1 + lowMid w1 + 137/5 := by linarith
  nlinarith [mul_nonneg hND hDD,
    mul_nonneg hD1nn (show 0 ≤ 248 * (w2 - w1) - 19 * (lowMid w2 - lowMid w1) by linarith),
    mul_nonneg hD1nn
      (show 0 ≤ lowMidX w1 + 42 * lowMid w2 - lowMidX w2 - 42 * lowMid w1 by linarith)]

/-! ## Monotonicity in nitidez, upper half: quality as a function of
the excelente clip level v is non-decreasing on [0,1] -/

lemma muHigh_mono (v1 v2 x : ℚ) (h : v1 ≤ v2) : muHigh v1 x ≤ muHigh v2 x :=
  max_le_max (le_refl _) (min_le_min h (le_refl _))

lemma muHigh_ge_acept (v x : ℚ) : calidad_aceptable x ≤ muHigh v x := le_max_left _ _

lemma muHigh_nonneg (v x : ℚ) : 0 ≤ muHigh v x :=
  le_trans (acept_nonneg x) (muHigh_ge_acept v x)

lemma gridB0 : ∀ x ∈ Finset.Ico (0:ℕ) 78,
    calidad_excelente (x:ℚ) ≤ calidad_aceptable (x:ℚ) := by decide

lemma gridB1 : ∀ x ∈ Finset.Ico (78:ℕ) 90,
    calidad_aceptable (x:ℚ) ≤ calidad_excelente (x:ℚ) := by decide

lemma gridB2 : ∀ x ∈ Finset.Ico (90:ℕ) 101,
    calidad_aceptable (x:ℚ) = 0 ∧ calidad_excelente (x:ℚ) = 1 := by decide

lemma sumB0acept : (∑ x in Finset.Ico (0:ℕ) 78, calidad_aceptable (x:ℚ)) = 137/5 := by
  decide

lemma sumB0aceptx :
    (∑ x in Finset.Ico (0:ℕ) 78, (x:ℚ) * calidad_aceptable (x:ℚ)) = 4763/3 := by decide

lemma sumB1exc :
    (∑ x in Finset.Ico (78:ℕ) 90, ((x:ℚ) - 78) * calidad_excelente (x:ℚ)) = 517/10 := by
  decide

lemma sumB2x : (∑ x in Finset.Ico (90:ℕ) 101, (x:ℚ)) = 1045 := by decide

lemma muHigh_head (v : ℚ) :
    ∀ x ∈ Finset.Ico (0:ℕ) 78, muHigh v (x:ℚ) = calidad_aceptable (x:ℚ) := by
  intro x hx
  rw [muHigh, max_eq_left (le_trans (min_le_right _ _) (gridB0 x hx))]

lemma muHigh_le_exc (v : ℚ) :
    ∀ x ∈ Finset.Ico (78:ℕ) 90, muHigh v (x:ℚ) ≤ calidad_excelente (x:ℚ) := by
  intro x hx
  exact max_le (gridB1 x hx) (min_le_right _ _)

lemma muHigh_plateau (v : ℚ) (h0 : 0 ≤ v) (h1 : v ≤ 1) :
    ∀ x ∈ Finset.Ico (90:ℕ) 101, muHigh v (x:ℚ) = v := by
  intro x hx
  rw [muHigh, (gridB2 x hx).1, (gridB2 x hx).2, min_eq_left h1, max_eq_right h0]

lemma denHigh_eq (v : ℚ) (h0 : 0 ≤ v) (h1 : v ≤ 1) :
    centroidDen 0 1 v = 137/5 + highMid v + 11 * v := by
  unfold centroidDen
  rw [Finset.range_eq_Ico,
    ← Finset.sum_Ico_consecutive _ (show (0:ℕ) ≤ 78 by norm_num) (show (78:ℕ) ≤ 101 by norm_num),
    ← Finset.sum_Ico_consecutive _ (show (78:ℕ) ≤ 90 by norm_num) (show (90:ℕ) ≤ 101 by norm_num)]
  have e0 : (∑ x in Finset.Ico (0:ℕ) 78, aggregatedMF 0 1 v (x:ℚ)) = 137/5 := by
    have hc : (∑ x in Finset.Ico (0:ℕ) 78, aggregatedMF 0 1 v (x:ℚ)) =
        ∑ x in Finset.Ico (0:ℕ) 78, calidad_aceptable (x:ℚ) :=
      Finset.sum_congr rfl fun x hx => (aggHigh_eq v (x:ℚ)).trans (muHigh_head v x hx)
    rw [hc]
    exact sumB0acept
  have e1 : (∑ x in Finset.Ico (78:ℕ) 90, aggregatedMF 0 1 v (x:ℚ)) = highMid v := by
    have hc : (∑ x in Finset.Ico (78:ℕ) 90, aggregatedMF 0 1 v (x:ℚ)) =
        ∑ x in Finset.Ico (78:ℕ) 90, muHigh v (x:ℚ) :=
      Finset.sum_congr rfl fun x _ => aggHigh_eq v (x:ℚ)
    rw [hc]
    rfl
  have e2 : (∑ x in Finset.Ico (90:ℕ) 101, aggregatedMF 0 1 v (x:ℚ)) = 11 * v := by
    have hc : (∑ x in Finset.Ico (90:ℕ) 101, aggregatedMF 0 1 v (x:ℚ)) =
        ∑ x in Finset.Ico (90:ℕ) 101, v :=
      Finset.sum_congr rfl fun x hx => (aggHigh_eq v (x:ℚ)).trans (muHigh_plateau v h0 h1 x hx)
    rw [hc, Finset.sum_const, Nat.card_Ico, nsmul_eq_mul]
    norm_num
  rw [e0, e1, e2]
  ring

lemma numHigh_eq (v : ℚ) (h0 : 0 ≤ v) (h1 : v ≤ 1) :
    centroidNum 0 1 v = 4763/3 + highMidX v + 1045 * v := by
  unfold centroidNum
  rw [Finset.range_eq_Ico,
    ← Finset.sum_Ico_consecutive _ (show (0:ℕ) ≤ 78 by norm_num) (show (78:ℕ) ≤ 101 by norm_num),
    ← Finset.sum_Ico_consecutive _ (show (78:ℕ) ≤ 90 by norm_num) (show (90:ℕ) ≤ 101 by norm_num)]
  have e0 : (∑ x in Finset.Ico (0:ℕ) 78, (x:ℚ) * aggregatedMF 0 1 v (x:ℚ)) = 4763/3 := by
    have hc : (∑ x in Finset.Ico (0:ℕ) 78, (x:ℚ) * aggregatedMF 0 1 v (x:ℚ)) =
        ∑ x in Finset.Ico (0:ℕ) 78, (x:ℚ) * calidad_aceptable (x:ℚ) :=
      Finset.sum_congr rfl fun x hx => by
        rw [aggHigh_eq v (x:ℚ), muHigh_head v x hx]
    rw [hc]
    exact sumB0aceptx
  have e1 : (∑ x in Finset.Ico (78:ℕ) 90, (x:ℚ) * aggregatedMF 0 1 v (x:ℚ)) = highMidX v := by
    have hc : (∑ x in Finset.Ico (78:ℕ) 90, (x:ℚ) * aggregatedMF 0 1 v (x:ℚ)) =
        ∑ x in Finset.Ico (78:ℕ) 90, (x:ℚ) * muHigh v (x:ℚ) :=
      Finset.sum_congr rfl fun x _ => by rw [aggHigh_eq v (x:ℚ)]
    rw [hc]
    rfl
  have e2 : (∑ x in Finset.Ico (90:ℕ) 101, (x:ℚ) * aggregatedMF 0 1 v (x:ℚ)) = 1045 * v := by
    have hc : (∑ x in Finset.Ico (90:ℕ) 101, (x:ℚ) * aggregatedMF 0 1 v (x:ℚ)) =
        ∑ x in Finset.Ico (90:ℕ) 101, (x:ℚ) * v :=
      Finset.sum_congr rfl fun x hx => by
        rw [aggHigh_eq v (x:ℚ), muHigh_plateau v h0 h1 x hx]
    rw [hc, ← Finset.sum_mul, sumB2x]
  rw [e0, e1, e2]
  ring

lemma highMid_nonneg (v : ℚ) : 0 ≤ highMid v := by
  unfold highMid
  exact Finset.sum_nonneg fun x _ => muHigh_nonneg v (x:ℚ)

lemma highMid_mono (v1 v2 : ℚ) (h : v1 ≤ v2) : highMid v1 ≤ highMid v2 := by
  unfold highMid
  exact Finset.sum_le_sum fun x _ => muHigh_mono v1 v2 (x:ℚ) h

lemma highMidX_ub (v : ℚ) : highMidX v ≤ 78 * highMid v + 517/10 := by
  unfold highMid highMidX
  rw [← sumB1exc, Finset.mul_sum, ← Finset.sum_add_distrib]
  apply Finset.sum_le_sum
  intro x hx
  have h78 : (78:ℚ) ≤ (x:ℚ) := by exact_mod_cast (Finset.mem_Ico.mp hx).1
  have hle := muHigh_le_exc v x hx
  nlinarith [mul_nonneg (sub_nonneg.mpr h78) (sub_nonneg.mpr hle)]

lemma highMidX_step (v1 v2 : ℚ) (h : v1 ≤ v2) :
    highMidX v1 + 78 * highMid v2 ≤ highMidX v2 + 78 * highMid v1 := by
  unfold highMid highMidX
  rw [Finset.mul_sum, Finset.mul_sum, ← Finset.sum_add_distrib, ← Finset.sum_add_distrib]
  apply Finset.sum_le_sum
  intro x hx
  have h78 : (78:ℚ) ≤ (x:ℚ) := by exact_mod_cast (Finset.mem_Ico.mp hx).1
  have hmono := muHigh_mono v1 v2 (x:ℚ) h
  nlinarith [mul_nonneg (sub_nonneg.mpr hmono) (sub_nonneg.mpr h78)]

lemma qualityHigh_monotone (v1 v2 : ℚ) (h0 : 0 ≤ v1) (h12 : v1 ≤ v2) (h1 : v2 ≤ 1) :
    qualityHigh v1 ≤ qualityHigh v2 := by
  have h0' : 0 ≤ v2 := le_trans h0 h12
  have h1' : v1 ≤ 1 := le_trans h12 h1
  have hD1 := denHigh_eq v1 h0 h1'
  have hD2 := denHigh_eq v2 h0' h1
  have hN1 := numHigh_eq v1 h0 h1'
  have hN2 := numHigh_eq v2 h0' h1
  have hT1 := highMid_nonneg v1
  have hT2 := highMid_nonneg v2
  have hU1ub := highMidX_ub v1
  have hUstep := highMidX_step v1 v2 h12
  have hTmono := highMid_mono v1 v2 h12
  have hD1pos : 0 < centroidDen 0 1 v1 := by rw [hD1]; linarith
  have hD2pos : 0 < centroidDen 0 1 v2 := by rw [hD2]; linarith
  unfold qualityHigh defuzzCentroid
  rw [if_neg (ne_of_gt hD1pos), if_neg (ne_of_gt hD2pos),
    div_le_div_iff₀ hD1pos hD2pos, hN1, hN2, hD1, hD2]
  have hup : (4763/3 + highMidX v1 + 1045 * v1) ≤
      78 * (137/5 + highMid v1 + 11 * v1) := by linarith
  have hD1nn : 0 ≤ 137/5 + highMid v1 + 11 * v1 := by linarith
  nlinarith [mul_nonneg hD1nn
      (show 0 ≤ highMidX v2 + 78 * highMid v1 - highMidX v1 - 78 * highMid v2 by linarith),
    mul_nonneg (show 0 ≤ highMid v2 - highMid v1 by linarith)
      (show 0 ≤ 78 * (137/5 + highMid v1 + 11 * v1) - (4763/3 + highMidX v1 + 1045 * v1) by
        linarith),
    mul_nonneg (show 0 ≤ v2 - v1 by linarith)
      (show 0 ≤ 78 * (137/5 + highMid v1 + 11 * v1) - (4763/3 + highMidX v1 + 1045 * v1) by
        linarith),
    mul_nonneg (show 0 ≤ v2 - v1 by linarith) hD1nn]

/-! ## Claims -/

/-- C1: For every input triple (sharpness, contrast, exposure) in
[0,10]^3, at least one of the 8 rules has a strictly positive
activation strength (so the degenerate all-zero-activation case never
occurs), and evaluate returns a quality value within the output
universe bounds [0,100].  In this total shallow embedding "never
raises" holds by construction. -/
theorem c1_evaluate_total_in_bounds (n c e : ℚ) (h0n : 0 ≤ n) (h10n : n ≤ 10)
    (h0c : 0 ≤ c) (h10c : c ≤ 10) (h0e : 0 ≤ e) (h10e : e ≤ 10) :
    (0 < rule1_act n c e ∨ 0 < rule2_act n c e ∨ 0 < rule3_act n c e ∨
      0 < rule4_act n c e ∨ 0 < rule5_act n c e ∨ 0 < rule6_act n c e ∨
      0 < rule7_act n c e ∨ 0 < rule8_act n c e) ∧
    0 ≤ evaluate_quality n c e ∧ evaluate_quality n c e ≤ 100 := by
  constructor
  · rcases some_rule_pos n c e h0n h10n h0c h10c with h | h | h
    · exact Or.inl h
    · exact Or.inr (Or.inl h)
    · exact Or.inr (Or.inr (Or.inr (Or.inr (Or.inr (Or.inl h)))))
  · unfold evaluate_quality
    exact defuzzCentroid_bounds _ _ _
      (agg_excelente_nonneg (clampInput n) (clampInput c) (clampInput e))

theorem c1_evaluate_total_in_bounds_witness :
    ((0:ℚ) ≤ 3 ∧ (3:ℚ) ≤ 10 ∧ (0:ℚ) ≤ 4 ∧ (4:ℚ) ≤ 10 ∧ (0:ℚ) ≤ 5 ∧ (5:ℚ) ≤ 10) ∧
    ((0 < rule1_act 3 4 5 ∨ 0 < rule2_act 3 4 5 ∨ 0 < rule3_act 3 4 5 ∨
      0 < rule4_act 3 4 5 ∨ 0 < rule5_act 3 4 5 ∨ 0 < rule6_act 3 4 5 ∨
      0 < rule7_act 3 4 5 ∨ 0 < rule8_act 3 4 5) ∧
    0 ≤ evaluate_quality 3 4 5 ∧ evaluate_quality 3 4 5 ≤ 100) :=
  ⟨by norm_num,
    c1_evaluate_total_in_bounds 3 4 5 (by norm_num) (by norm_num) (by norm_num)
      (by norm_num) (by norm_num) (by norm_num)⟩

/-- C2: For every antecedent variable, an input value above the
universe bound 10 is clamped to 10, so evaluate at 15 (in particular)
for any one antecedent returns exactly the same quality as evaluate
at 10 for that antecedent, the other two held fixed. -/
theorem c2_out_of_range_clamped (x a b : ℚ) (hx : 10 ≤ x) :
    evaluate_quality x a b = evaluate_quality 10 a b ∧
    evaluate_quality a x b = evaluate_quality a 10 b ∧
    evaluate_quality a b x = evaluate_quality a b 10 := by
  have h : clampInput x = clampInput 10 := by
    unfold clampInput
    rw [min_eq_left hx, min_self]
  unfold evaluate_quality
  rw [h]
  exact ⟨rfl, rfl, rfl⟩

theorem c2_out_of_range_clamped_witness :
    (10:ℚ) ≤ 15 ∧
    (evaluate_quality 15 3 7 = evaluate_quality 10 3 7 ∧
     evaluate_quality 3 15 7 = evaluate_quality 3 10 7 ∧
     evaluate_quality 3 7 15 = evaluate_quality 3 7 10) :=
  ⟨by norm_num, c2_out_of_range_clamped 15 3 7 (by norm_num)⟩

/-- C3: Evaluate at (10, 10, 5) returns a quality strictly greater
than 70 (excellent band), and evaluate at (0, 0, 5) returns a quality
strictly less than 50 (poor band).  The computed values are 3667/41
(≈ 89.44) and 1633/81 (≈ 20.16). -/
theorem c3_extremes :
    70 < evaluate_quality 10 10 5 ∧ evaluate_quality 0 0 5 < 50 :=
  ⟨by decide, by decide⟩

/-- C4: With contrast and exposure both fixed at 5, the quality
returned by evaluate is monotone non-decreasing in the sharpness
input over [0,10]. -/
theorem c4_monotone_in_sharpness (s1 s2 : ℚ) (h0 : 0 ≤ s1) (h12 : s1 ≤ s2)
    (h10 : s2 ≤ 10) : evaluate_quality s1 5 5 ≤ evaluate_quality s2 5 5 := by
  rcases le_total s2 5 with hs2 | hs2
  · rw [eval_slice_low s1 h0 (by linarith), eval_slice_low s2 (by linarith) hs2]
    exact qualityLow_antitone ((5 - s2)/5) ((5 - s1)/5)
      (by linarith) (by linarith) (by linarith)
  · rcases le_total s1 5 with hs1 | hs1
    · rw [eval_slice_low s1 h0 hs1, eval_slice_high s2 hs2 h10]
      have hA : qualityLow ((5 - s1)/5) ≤ qualityLow 0 :=
        qualityLow_antitone 0 ((5 - s1)/5) le_rfl (by linarith) (by linarith)
      have hmid : qualityLow 0 = qualityHigh 0 := rfl
      have hB : qualityHigh 0 ≤ qualityHigh ((s2 - 5)/5) :=
        qualityHigh_monotone 0 ((s2 - 5)/5) le_rfl (by linarith) (by linarith)
      rw [hmid] at hA
      exact le_trans hA hB
    · rw [eval_slice_high s1 hs1 (by linarith), eval_slice_high s2 hs2 h10]
      exact qualityHigh_monotone ((s1 - 5)/5) ((s2 - 5)/5)
        (by linarith) (by linarith) (by linarith)

theorem c4_monotone_in_sharpness_witness :
    ((0:ℚ) ≤ 2 ∧ (2:ℚ) ≤ 7 ∧ (7:ℚ) ≤ 10) ∧
    evaluate_quality 2 5 5 ≤ evaluate_quality 7 5 5 :=
  ⟨by norm_num, c4_monotone_in_sharpness 2 7 (by norm_num) (by norm_num) (by norm_num)⟩

/-- C5: Evaluate at (5, 5, 5) returns a quality within the band
[30,90] and strictly closer to the acceptable term's central tendency
60 than to either extreme of the band (the value is exactly 60). -/
theorem c5_boundary_centering :
    30 ≤ evaluate_quality 5 5 5 ∧ evaluate_quality 5 5 5 ≤ 90 ∧
    |evaluate_quality 5 5 5 - 60| < |evaluate_quality 5 5 5 - 30| ∧
    |evaluate_quality 5 5 5 - 60| < |evaluate_quality 5 5 5 - 90| := by
  rw [show evaluate_quality 5 5 5 = 60 from by decide]
  norm_num

/-- C6: Evaluate at (8, 8, 0) and at (8, 8, 10) both return a low
quality value (below the poor boundary 50), and the two values are
equal (hence in particular approximately equal): both are 13911/332
(≈ 41.90), because the two inputs produce identical aggregated
activations (1, 2/5, 3/5). -/
theorem c6_exposure_symmetry :
    evaluate_quality 8 8 0 < 50 ∧ evaluate_quality 8 8 10 < 50 ∧
    evaluate_quality 8 8 0 = evaluate_quality 8 8 10 :=
  ⟨by decide, by decide, by decide⟩

/-- C7: Evaluate is deterministic and free of hidden state drift:
running evaluate a second time with the same inputs on the simulation
state left by the first run returns the same value and the same
state, and the value returned through the stateful interface agrees
with the pure pipeline. -/
theorem c7_idempotent_evaluate (n c e : ℚ) (s : ControlSystemSimulation) :
    evaluate_quality_sim n c e ((evaluate_quality_sim n c e s).2) =
      evaluate_quality_sim n c e s ∧
    (evaluate_quality_sim n c e s).1 = evaluate_quality n c e :=
  ⟨rfl, rfl⟩

/-- C8 counterexample: the claim states a triangular function (a,b,c)
with a ≤ b ≤ c is 0 for x ≤ a; but for the degenerate system term
nitidez['baja'] = trimf [0,0,5] the value at x = 0 (which satisfies
x ≤ a = 0) is the peak membership 1, not 0. -/
theorem c8_counterexample_degenerate_corner :
    (0:ℚ) ≤ 0 ∧ nitidez_baja 0 = 1 ∧ nitidez_baja 0 ≠ 0 :=
  ⟨le_rfl, by decide, by decide⟩

/-- C8 (amended): a triangular membership function (a,b,c) with
a ≤ b ≤ c always returns a degree in [0,1]; it is 1 at the peak
x = b; it is 0 for x ≤ a or x ≥ c except at the peak itself (the
degenerate vertical-edge corner when a = b or b = c); it rises
linearly as (x-a)/(b-a) on (a,b) and falls linearly as (c-x)/(c-b)
on (b,c), in both cases with a strictly positive divisor, so
zero-width rise/fall segments never cause a division by zero; and
the system's two trapezoidal terms also return degrees in [0,1]. -/
theorem c8_membership_contract (a b c x : ℚ) (hab : a ≤ b) (hbc : b ≤ c) :
    (0 ≤ trimf a b c x ∧ trimf a b c x ≤ 1) ∧
    trimf a b c b = 1 ∧
    (x ≤ a → x ≠ b → trimf a b c x = 0) ∧
    (c ≤ x → x ≠ b → trimf a b c x = 0) ∧
    (a < x → x < b → trimf a b c x = (x - a) / (b - a) ∧ 0 < b - a) ∧
    (b < x → x < c → trimf a b c x = (c - x) / (c - b) ∧ 0 < c - b) ∧
    (0 ≤ trapmf 0 0 30 50 x ∧ trapmf 0 0 30 50 x ≤ 1) ∧
    (0 ≤ trapmf 70 90 100 100 x ∧ trapmf 70 90 100 100 x ≤ 1) := by
  refine ⟨⟨trimf_nonneg a b c x hab hbc, trimf_le_one a b c x hab hbc⟩, ?_, ?_, ?_, ?_, ?_,
    ⟨trapmf_nonneg 0 0 30 50 x (by norm_num) (by norm_num) (by norm_num),
     trapmf_le_one 0 0 30 50 x (by norm_num) (by norm_num) (by norm_num)⟩,
    ⟨trapmf_nonneg 70 90 100 100 x (by norm_num) (by norm_num) (by norm_num),
     trapmf_le_one 70 90 100 100 x (by norm_num) (by norm_num) (by norm_num)⟩⟩
  · unfold trimf
    rw [if_pos rfl]
  · intro hxa hxb
    unfold trimf
    rw [if_neg hxb, if_pos (Or.inl hxa)]
  · intro hcx hxb
    unfold trimf
    rw [if_neg hxb, if_pos (Or.inr hcx)]
  · intro hax hxb
    constructor
    · unfold trimf
      rw [if_neg (ne_of_lt hxb), if_neg (by push_neg; exact ⟨hax, by linarith⟩), if_pos hxb]
    · linarith
  · intro hbx hxc
    constructor
    · unfold trimf
      rw [if_neg (Ne.symm (ne_of_lt hbx)), if_neg (by push_neg; exact ⟨by linarith, hxc⟩),
        if_neg (not_lt.mpr (le_of_lt hbx))]
    · linarith

theorem c8_membership_contract_witness :
    ((0:ℚ) ≤ 0 ∧ (0:ℚ) ≤ 5) ∧
    ((0 ≤ trimf 0 0 5 7 ∧ trimf 0 0 5 7 ≤ 1) ∧
    trimf 0 0 5 0 = 1 ∧
    ((7:ℚ) ≤ 0 → (7:ℚ) ≠ 0 → trimf 0 0 5 7 = 0) ∧
    ((5:ℚ) ≤ 7 → (7:ℚ) ≠ 0 → trimf 0 0 5 7 = 0) ∧
    ((0:ℚ) < 7 → (7:ℚ) < 0 → trimf 0 0 5 7 = (7 - 0) / (0 - 0) ∧ (0:ℚ) < 0 - 0) ∧
    ((0:ℚ) < 7 → (7:ℚ) < 5 → trimf 0 0 5 7 = (5 - 7) / (5 - 0) ∧ (0:ℚ) < 5 - 0) ∧
    (0 ≤ trapmf 0 0 30 50 7 ∧ trapmf 0 0 30 50 7 ≤ 1) ∧
    (0 ≤ trapmf 70 90 100 100 7 ∧ trapmf 70 90 100 100 7 ≤ 1)) :=
  ⟨by norm_num, c8_membership_contract 0 0 5 7 le_rfl (by norm_num)⟩

/-- C9: On every internal-failure path of the HTTP endpoint — fuzzy
engine unavailable, missing upload, empty filename, or an exception
during processing — the JSON response carries the neutral default
quality value 50 rather than omitting the quality field. -/
theorem c9_failure_paths_default_50 :
    (∀ (hf fe : Bool) (m : Except String (ℚ × ℚ × ℚ)),
      (upload_and_evaluate_fuzzy_api none hf fe m).calidad = some 50) ∧
    (∀ (sim : ControlSystemSimulation) (fe : Bool) (m : Except String (ℚ × ℚ × ℚ)),
      (upload_and_evaluate_fuzzy_api (some sim) false fe m).calidad = some 50) ∧
    (∀ (sim : ControlSystemSimulation) (m : Except String (ℚ × ℚ × ℚ)),
      (upload_and_evaluate_fuzzy_api (some sim) true true m).calidad = some 50) ∧
    (∀ (sim : ControlSystemSimulation) (msg : String),
      (upload_and_evaluate_fuzzy_api (some sim) true false (Except.error msg)).calidad
        = some 50) :=
  ⟨fun _ _ _ => rfl, fun _ _ _ => rfl, fun _ _ => rfl, fun _ _ => rfl⟩

/-- C10: For every input triple in [0,10]^3 the quality value is
strictly interior to the output universe: strictly greater than 0 and
strictly less than 100, because some rule always fires and the
aggregated mass always covers interior sample points. -/
theorem c10_strictly_interior (n c e : ℚ) (h0n : 0 ≤ n) (h10n : n ≤ 10)
    (h0c : 0 ≤ c) (h10c : c ≤ 10) (h0e : 0 ≤ e) (h10e : e ≤ 10) :
    0 < evaluate_quality n c e ∧ evaluate_quality n c e < 100 := by
  unfold evaluate_quality
  rw [clampInput_eq_self n h0n h10n, clampInput_eq_self c h0c h10c,
    clampInput_eq_self e h0e h10e]
  apply defuzzCentroid_strict _ _ _ (agg_pobre_nonneg n c e) (agg_aceptable_nonneg n c e)
    (agg_excelente_nonneg n c e)
  rcases some_rule_pos n c e h0n h10n h0c h10c with h | h | h
  · left
    exact lt_of_lt_of_le h (by unfold agg_pobre; exact le_max_left _ _)
  · right; right
    exact lt_of_lt_of_le h (by unfold agg_excelente; exact le_max_left _ _)
  · right; left
    exact lt_of_lt_of_le h (by unfold agg_aceptable; exact le_max_right _ _)

theorem c10_strictly_interior_witness :
    ((0:ℚ) ≤ 1 ∧ (1:ℚ) ≤ 10 ∧ (0:ℚ) ≤ 9 ∧ (9:ℚ) ≤ 10 ∧ (0:ℚ) ≤ 2 ∧ (2:ℚ) ≤ 10) ∧
    (0 < evaluate_quality 1 9 2 ∧ evaluate_quality 1 9 2 < 100) :=
  ⟨by norm_num,
    c10_strictly_interior 1 9 2 (by norm_num) (by norm_num) (by norm_num) (by norm_num)
      (by norm_num) (by norm_num)⟩

end FuzzyPhoto
